import Mathlib

/-!
Verification of the trip-planner repository's planning workflow engine
(`app/services/langgraph_service.py`) and retrieval knowledge base
(`app/utils/rag_utils.py`), shallowly embedded in Lean 4.

Conventions of the embedding:
* Python exceptions are modelled with `Except String`: external collaborators
  (Wikipedia lookup, SerpAPI web search, knowledge-base query, LLM call)
  are fields of an `Env` record; a call that raises is `Except.error msg`.
* Python dicts with string keys are association lists (`List (String × String)`);
  `dict.get(k, d)` is `(l.lookup k).getD d`.  A dict entry that may be absent
  (the `similarity_score` key of a retrieval hit) is an `Option` field.
* FAISS similarity scores are floats in the source; no claim inspects their
  numeric value, only their presence, so they are abstracted as `Int`.
* The LangGraph runtime (conditional edges, routing, recursion limit) is
  embedded as a fuel-indexed small-step runner over an explicit node enum,
  mirroring the edge dictionaries built in `_build_workflow`.
-/

/-- Retrieval hit as produced by `RAGKnowledgeBase.query_knowledge_base`:
a dict with keys `content`, `source` and (only on the search path, not for
sentinel/error hits) `similarity_score`. -/
structure RagResult where
  content : String
  source : String
  similarity_score : Option Int
deriving Repr, DecidableEq

/-- `TravelPlanningState` of `langgraph_service.py` (a TypedDict). -/
structure TravelPlanningState where
  current_location : String
  destination : String
  budget : String
  duration : String
  purpose : String
  research_done : Bool
  research_results : List (String × String)
  rag_results : List RagResult
  travel_plan : String
  additional_info : String
  error : String
  next_step : String
deriving Repr, DecidableEq

/-- `TravelPlanningNodes` enum: the five graph nodes. -/
inductive Node where
  | research
  | rag
  | plan_generation
  | recommendation
  | error_handler
deriving Repr, DecidableEq

/-- External collaborators of `TravelPlannerWorkflow`: Wikipedia wrapper,
optional SerpAPI wrapper (`None` when no API key was supplied), the
knowledge base, and the chat LLM (called with a system and a user message). -/
structure Env where
  wikipedia_run : String → Except String String
  serpapi : Option (String → Except String String)
  kb_query : String → Nat → Except String (List RagResult)
  llm : String → String → Except String String

/-- Wikipedia query built in `_research`. -/
def wikiQuery (destination : String) : String :=
  destination ++ "の観光情報、見どころ、アクセス"

/-- SerpAPI web query built in `_research`. -/
def webQuery (destination : String) : String :=
  destination ++ " 観光 おすすめ スポット 2024"

/-- `_research` node: Wikipedia lookup, plus web search when SerpAPI is
configured; results stored under keys `"wikipedia"` and `"web_search"`.
Any raise is caught and routed to the error handler. -/
def _research (env : Env) (state : TravelPlanningState) : TravelPlanningState :=
  match env.wikipedia_run (wikiQuery state.destination) with
  | Except.error e =>
      { state with error := "research中にエラーが発生しました: " ++ e
                 , next_step := "error_handler" }
  | Except.ok wiki_result =>
      match env.serpapi with
      | none =>
          { state with research_done := true
                     , research_results := [("wikipedia", wiki_result)]
                     , next_step := "rag" }
      | some search =>
          match search (webQuery state.destination) with
          | Except.error e =>
              { state with error := "research中にエラーが発生しました: " ++ e
                         , next_step := "error_handler" }
          | Except.ok web_result =>
              { state with research_done := true
                         , research_results :=
                             [("wikipedia", wiki_result), ("web_search", web_result)]
                         , next_step := "rag" }

/-- RAG query built in `_rag`. -/
def ragQuery (destination purpose duration : String) : String :=
  destination ++ "の旅行情報 " ++ purpose ++ " 滞在期間:" ++ duration

/-- `_rag` node: queries the knowledge base with `top_k=3`; on a raise it
records the error, substitutes the empty result list and still advances to
`plan_generation`. -/
def _rag (env : Env) (state : TravelPlanningState) : TravelPlanningState :=
  match env.kb_query (ragQuery state.destination state.purpose state.duration) 3 with
  | Except.ok rag_results =>
      { state with rag_results := rag_results, next_step := "plan_generation" }
  | Except.error e =>
      { state with error := "内部ナレッジベース検索中にエラーが発生しました: " ++ e
                 , rag_results := []
                 , next_step := "plan_generation" }

/-- The `rag_content` accumulation loop of `_plan_generation`. -/
def ragContent (results : List RagResult) : String :=
  results.enum.foldl
    (fun acc ir =>
      acc ++ "\n内部ナレッジベース " ++ toString (ir.1 + 1) ++ ":\n" ++ ir.2.content ++ "\n")
    ""

/-- System message of the plan-generation prompt. -/
def planSystemMessage : String :=
  "\n                あなたは日本の旅行プランを提案する専門家です。\n                提供された情報に基づいて、最適な旅行プランを3つ提案してください。\n                各プランには以下の情報を含めてください：\n                - プランの概要と特徴\n                - 訪問する場所のリスト（各場所の簡単な説明を含む）\n                - おすすめの宿泊施設\n                - 食事のおすすめ\n                - 予想される費用の内訳\n                - 季節に合わせたアドバイス\n                \n                回答は日本語でマークダウン形式にしてください。\n                "

/-- User message of the plan-generation prompt (the f-string of
`_plan_generation`, interpolating the trip request, research results and
rag content). -/
def planUserMessage (state : TravelPlanningState) : String :=
  "\n                以下の条件と収集した情報に基づいて旅行プランを作成してください。\n                \n                現在地: " ++ state.current_location
  ++ "\n                目的地: " ++ state.destination
  ++ "\n                予算: " ++ state.budget
  ++ "\n                滞在期間: " ++ state.duration
  ++ "\n                旅行の目的: " ++ state.purpose
  ++ "\n                \n                外部から収集した情報:\n                "
  ++ ((state.research_results.lookup "wikipedia").getD "情報なし")
  ++ "\n                \n                "
  ++ ((state.research_results.lookup "web_search").getD "")
  ++ "\n                \n                内部ナレッジベースからの情報:\n                "
  ++ ragContent state.rag_results
  ++ "\n                \n                外部情報と内部ナレッジを組み合わせて、最適な旅行プランを作成してください。\n                "

/-- `_plan_generation` node: one LLM call; its answer becomes `travel_plan`;
a raise records the error and routes to the error handler. -/
def _plan_generation (env : Env) (state : TravelPlanningState) : TravelPlanningState :=
  match env.llm planSystemMessage (planUserMessage state) with
  | Except.ok response =>
      { state with travel_plan := response, next_step := "recommendation" }
  | Except.error e =>
      { state with error := "旅行プラン生成中にエラーが発生しました: " ++ e
                 , next_step := "error_handler" }

/-- System message of the recommendation prompt. -/
def recommendationSystemMessage : String :=
  "\n                あなたは日本旅行のエキスパートです。\n                旅行プランに加えて、追加のアドバイスや現地の最新情報、文化的なヒントなどを提供してください。\n                回答は日本語でマークダウン形式にしてください。\n                "

/-- User message of the recommendation prompt. -/
def recommendationUserMessage (state : TravelPlanningState) : String :=
  "\n                以下の旅行条件について、追加のアドバイスや現地の最新情報、文化的なヒントなどを提供してください：\n                \n                目的地: " ++ state.destination
  ++ "\n                滞在期間: " ++ state.duration
  ++ "\n                旅行の目的: " ++ state.purpose
  ++ "\n                予算: " ++ state.budget
  ++ "\n                \n                特に以下の点について触れてください：\n                - 現地の気候と服装のアドバイス\n                - 現地の交通手段\n                - 現地のマナーや慣習\n                - おすすめのお土産\n                - 旅行保険や安全に関するアドバイス\n                "

/-- `_recommendation` node: one LLM call; its answer becomes
`additional_info`; a raise records the error and routes to the error
handler. -/
def _recommendation (env : Env) (state : TravelPlanningState) : TravelPlanningState :=
  match env.llm recommendationSystemMessage (recommendationUserMessage state) with
  | Except.ok response =>
      { state with additional_info := response, next_step := "end" }
  | Except.error e =>
      { state with error := "追加情報生成中にエラーが発生しました: " ++ e
                 , next_step := "error_handler" }

/-- The fallback plan f-string of `_error_handler`. -/
def fallbackPlan (error_message destination duration budget purpose : String) : String :=
  "\n        # 旅行プラン生成中にエラーが発生しました\n        \n        申し訳ありませんが、以下のエラーにより完全な旅行プランを生成できませんでした：\n        \n        ```\n        "
  ++ error_message
  ++ "\n        ```\n        \n        ### 基本的な"
  ++ destination
  ++ "旅行情報\n        \n        * 滞在期間: "
  ++ duration
  ++ "\n        * 予算: "
  ++ budget
  ++ "\n        * 目的: "
  ++ purpose
  ++ "\n        \n        一般的な"
  ++ destination
  ++ "旅行のアドバイス：\n        \n        "
  ++ "1. 事前に主要な観光スポットを調査してください"
  ++ "\n        "
  ++ "2. 現地の天気に適した服装を準備してください"
  ++ "\n        "
  ++ "3. 現地の交通手段を確認してください"
  ++ "\n        "
  ++ "4. 旅行保険への加入を検討してください"
  ++ "\n        "

/-- `_error_handler` node: pure formatting, no external call.  The source
reads `state.get("error", "不明なエラーが発生しました")`; the `error` key is
always present (set in the initial state and never deleted), so the default
is dead and the recorded error string is used as is. -/
def _error_handler (state : TravelPlanningState) : TravelPlanningState :=
  { state with
      travel_plan :=
        fallbackPlan state.error state.destination state.duration state.budget state.purpose
    , next_step := "end" }

/-- `_should_research` entry router (`if not research_done` thanks to the
always-present key). -/
def _should_research (state : TravelPlanningState) : String :=
  if state.research_done = false then "research" else "plan_generation"

/-- One node execution, as dispatched by `_build_workflow`'s `add_node`s. -/
def stepNode (env : Env) : Node → TravelPlanningState → TravelPlanningState
  | Node.research => _research env
  | Node.rag => _rag env
  | Node.plan_generation => _plan_generation env
  | Node.recommendation => _recommendation env
  | Node.error_handler => _error_handler

/-- Outcome of consulting a conditional-edge dictionary. -/
inductive RouteResult where
  | next (n : Node)
  | halt
  | invalid
deriving Repr, DecidableEq

/-- The conditional-edge dictionaries of `_build_workflow`, keyed by the
source node and the `next_step` token returned by `_router` (`_should_research`
for the entry edge is handled separately in `entryEdge`).  A token absent from
the dictionary is a routing defect (`invalid`), which the LangGraph runtime
surfaces as a raised error.  `error_handler` has an unconditional edge to END. -/
def routeAfter : Node → String → RouteResult
  | Node.research, "rag" => RouteResult.next Node.rag
  | Node.research, "error_handler" => RouteResult.next Node.error_handler
  | Node.rag, "plan_generation" => RouteResult.next Node.plan_generation
  | Node.rag, "error_handler" => RouteResult.next Node.error_handler
  | Node.plan_generation, "recommendation" => RouteResult.next Node.recommendation
  | Node.plan_generation, "error_handler" => RouteResult.next Node.error_handler
  | Node.recommendation, "end" => RouteResult.halt
  | Node.recommendation, "error_handler" => RouteResult.next Node.error_handler
  | Node.error_handler, _ => RouteResult.halt
  | _, _ => RouteResult.invalid

/-- The START conditional-edge dictionary
(`{"research": RESEARCH, "plan_generation": PLAN_GENERATION}`). -/
def entryEdge : String → RouteResult
  | "research" => RouteResult.next Node.research
  | "plan_generation" => RouteResult.next Node.plan_generation
  | _ => RouteResult.invalid

/-- Fuel-indexed execution of the compiled graph from a given node.
Exhausted fuel models LangGraph's recursion limit; both it and an invalid
route surface as raised errors caught by `generate_travel_plans`. -/
def runFrom (env : Env) : Nat → Node → TravelPlanningState → Except String TravelPlanningState
  | 0, _, _ => Except.error "GraphRecursionError"
  | fuel + 1, n, s =>
      match routeAfter n (stepNode env n s).next_step with
      | RouteResult.halt => Except.ok (stepNode env n s)
      | RouteResult.next m => runFrom env fuel m (stepNode env n s)
      | RouteResult.invalid =>
          Except.error ("unknown next_step: " ++ (stepNode env n s).next_step)

/-- `workflow.invoke(initial_state)`: route from START, then run. -/
def invokeWorkflow (env : Env) (s : TravelPlanningState) : Except String TravelPlanningState :=
  match entryEdge (_should_research s) with
  | RouteResult.next n => runFrom env 25 n s
  | RouteResult.halt => Except.ok s
  | RouteResult.invalid => Except.error ("unknown entry: " ++ _should_research s)

/-- The initial state built in `generate_travel_plans`. -/
def initialState (current_location destination budget duration purpose : String) :
    TravelPlanningState :=
  { current_location := current_location
  , destination := destination
  , budget := budget
  , duration := duration
  , purpose := purpose
  , research_done := false
  , research_results := []
  , rag_results := []
  , travel_plan := ""
  , additional_info := ""
  , error := ""
  , next_step := "research" }

/-- Result payload of `generate_travel_plans`: a dict that has keys
`travel_plans`/`additional_info` (workflow completed) and `error` only when
set; `none` models an absent key. -/
structure PlanResult where
  travel_plans : Option String
  additional_info : Option String
  error : Option String
deriving Repr, DecidableEq

/-- `generate_travel_plans`: run the workflow; on normal completion return
the plan and advice, attaching `error` only when the final state's error is
truthy (non-empty); any escaping exception becomes an error-only payload. -/
def generate_travel_plans (env : Env)
    (current_location destination budget duration purpose : String) : PlanResult :=
  match invokeWorkflow env (initialState current_location destination budget duration purpose) with
  | Except.ok final_state =>
      { travel_plans := some final_state.travel_plan
      , additional_info := some final_state.additional_info
      , error := if final_state.error = "" then none else some final_state.error }
  | Except.error e =>
      { travel_plans := none
      , additional_info := none
      , error := some ("旅行プランの生成中にエラーが発生しました: " ++ e) }

/-!  Knowledge base (`rag_utils.py`).  -/

/-- A LangChain `Document`: page content plus a metadata dict from which
only the `source` key is read (`metadata.get("source", "不明")`); an absent
key is `none`. -/
structure RagDoc where
  page_content : String
  metadata_source : Option String
deriving Repr, DecidableEq

/-- The vector store held by `RAGKnowledgeBase`: either a
`DocArrayInMemorySearch` (whose `similarity_search` returns no scores) or a
`FAISS` store (whose `similarity_search_with_score` returns scores).  The
search function itself is external (embedding call plus index lookup) and
may raise. -/
inductive VectorStore where
  | docarray (similarity_search : String → Nat → Except String (List RagDoc))
  | faiss (similarity_search_with_score : String → Nat → Except String (List (RagDoc × Int)))

/-- Formatting of one search result into the returned dict. -/
def formatHit (doc : RagDoc) (score : Int) : RagResult :=
  { content := doc.page_content
  , source := doc.metadata_source.getD "不明"
  , similarity_score := some score }

/-- `RAGKnowledgeBase.query_knowledge_base`: on an unset store return the
single uninitialized sentinel hit; otherwise search (DocArray results get a
dummy `0.0` score), formatting each hit; a raise inside the search is caught
and becomes a single error hit.  Sentinel and error hits carry no
`similarity_score` key (`none`). -/
def query_knowledge_base (vector_store : Option VectorStore) (query : String) (top_k : Nat) :
    List RagResult :=
  match vector_store with
  | none =>
      [{ content := "ナレッジベースが初期化されていません", source := "", similarity_score := none }]
  | some (VectorStore.docarray search) =>
      match search query top_k with
      | Except.ok documents =>
          (documents.map (fun doc => (doc, (0 : Int)))).map (fun ds => formatHit ds.1 ds.2)
      | Except.error e =>
          [{ content := "ナレッジベース検索中にエラーが発生しました: " ++ e
           , source := "", similarity_score := none }]
  | some (VectorStore.faiss search) =>
      match search query top_k with
      | Except.ok results =>
          results.map (fun ds => formatHit ds.1 ds.2)
      | Except.error e =>
          [{ content := "ナレッジベース検索中にエラーが発生しました: " ++ e
           , source := "", similarity_score := none }]

/-!
Chunking.  `initialize_knowledge_base` delegates the actual splitting to
LangChain's `RecursiveCharacterTextSplitter`, a library dependency whose code
is not part of this repository; only its configuration is
(`chunk_size=500`, `chunk_overlap=50`, separator priority list
`["\n## ", "\n### ", "\n#### ", "\n", "。", "、", " ", ""]`).
The splitter below is therefore modelled from the spec.  Documents and chunks
are `List Char` (length is counted in characters).
-/

/-- First occurrence of a separator: `findSplit sep text = some (pre, post)`
with `text = pre ++ sep ++ post` and `pre` minimal, `none` when `sep` does
not occur. -/
def findSplit (sep : List Char) : List Char → Option (List Char × List Char)
  | [] => none
  | c :: rest =>
      if sep.isPrefixOf (c :: rest) then some ([], (c :: rest).drop sep.length)
      else
        match findSplit sep rest with
        | none => none
        | some (pre, post) => some (c :: pre, post)

/-- Splitting at every occurrence of `sep`, keeping the separator attached to
the piece it ends (fuel-indexed; `text.length` fuel always suffices for a
non-empty separator). -/
def splitOnKeepGo (sep : List Char) : Nat → List Char → List (List Char)
  | 0, text => if text = [] then [] else [text]
  | Nat.succ fuel, text =>
      match findSplit sep text with
      | none => if text = [] then [] else [text]
      | some (pre, post) => (pre ++ sep) :: splitOnKeepGo sep fuel post

/-- Modelled from the spec: one level of recursive splitting — break the
text at every occurrence of the given separator. -/
def splitOnKeep (sep text : List Char) : List (List Char) :=
  splitOnKeepGo sep text.length text

/-- Character-level fallback (the final `""` separator): consecutive blocks
of at most `target` characters. -/
def toBlocksGo (target : Nat) : Nat → List Char → List (List Char)
  | _, [] => []
  | 0, c :: rest => [c :: rest]
  | Nat.succ fuel, c :: rest =>
      (c :: rest.take (target - 1)) :: toBlocksGo target fuel (rest.drop (target - 1))

/-- Modelled from the spec: the bottom of the separator hierarchy. -/
def toBlocks (target : Nat) (text : List Char) : List (List Char) :=
  toBlocksGo target text.length text

/-- Modelled from the spec: recursive splitting that prefers the separators
in list order (headings before newline before sentence `。` before clause
`、` before space), falling back to character blocks; pieces longer than
`target` are re-split with the remaining, lower-priority separators. -/
def splitPieces : List (List Char) → Nat → List Char → List (List Char)
  | [], target, text => toBlocks target text
  | sep :: rest, target, text =>
      ((splitOnKeep sep text).map
        (fun p => if p.length ≤ target then [p] else splitPieces rest target p)).flatten

/-- Greedy merge: extend `acc` with further pieces while the total stays
within `limit`; returns the finished chunk and the unconsumed pieces. -/
def takeWhileFit (limit : Nat) (acc : List Char) : List (List Char) → List Char × List (List Char)
  | [] => (acc, [])
  | p :: ps =>
      if acc.length + p.length ≤ limit then takeWhileFit limit (acc ++ p) ps
      else (acc, p :: ps)

/-- Modelled from the spec: build each subsequent chunk from the trailing
`ov` characters of the previous chunk (the overlap) followed by greedily
merged pieces (fuel-indexed; the piece-list length always suffices). -/
def mergeChunksGo (limit ov : Nat) : Nat → List (List Char) → List Char → List (List Char)
  | _, [], _ => []
  | 0, _ :: _, _ => []
  | fuel + 1, p :: ps, prev =>
      (takeWhileFit limit (prev.drop (prev.length - ov) ++ p) ps).1
        :: mergeChunksGo limit ov fuel
            (takeWhileFit limit (prev.drop (prev.length - ov) ++ p) ps).2
            (takeWhileFit limit (prev.drop (prev.length - ov) ++ p) ps).1

/-- Modelled from the spec: merge bounded pieces into chunks of at most
`limit` characters with `ov` characters of overlap between consecutive
chunks. -/
def mergeChunks (limit ov : Nat) (pieces : List (List Char)) : List (List Char) :=
  match pieces with
  | [] => []
  | p :: ps =>
      (takeWhileFit limit p ps).1
        :: mergeChunksGo limit ov ps.length (takeWhileFit limit p ps).2 (takeWhileFit limit p ps).1

/-- The separator priority list configured in `initialize_knowledge_base`
(the eighth, empty separator is the character-level fallback `toBlocks`). -/
def ragSeparators : List (List Char) :=
  [("\n## ").data, ("\n### ").data, ("\n#### ").data,
   ("\n").data, ("。").data, ("、").data, (" ").data]

/-- Modelled from the spec: split one ingested document with
`chunk_size=500` and `chunk_overlap=50` as configured in
`initialize_knowledge_base`: recursive separator splitting into pieces of at
most `500 - 50` characters, then the overlap merge. -/
def splitDocument (doc : List Char) : List (List Char) :=
  mergeChunks 500 50 (splitPieces ragSeparators 450 doc)

/-!  String helpers used by the theorems.  -/

/-- Substring containment, stated over the character lists. -/
def containsText (s pat : String) : Prop := pat.data <:+: s.data

/-!  Helper lemmas.  -/

theorem ct_self (s : String) : containsText s s := ⟨[], [], by simp⟩

theorem ct_left {s pat : String} (t : String) (h : containsText s pat) :
    containsText (s ++ t) pat := by
  obtain ⟨u, v, huv⟩ := h
  exact ⟨u, v ++ t.data, by rw [String.data_append, ← huv]; simp⟩

theorem ct_right {t pat : String} (s : String) (h : containsText t pat) :
    containsText (s ++ t) pat := by
  obtain ⟨u, v, huv⟩ := h
  exact ⟨s.data ++ u, v, by rw [String.data_append, ← huv]; simp⟩

theorem append_ne_empty_of_left (a b : String) (ha : a.data ≠ []) : a ++ b ≠ "" := by
  intro hc
  apply ha
  have h2 := congrArg String.data hc
  rw [String.data_append] at h2
  exact (List.append_eq_nil.mp h2).1

theorem str_ne_empty_of_contains (s pat : String) (h : containsText s pat)
    (hp : pat.data ≠ []) : s ≠ "" := by
  obtain ⟨u, v, huv⟩ := h
  intro hc
  rw [hc] at huv
  apply hp
  have h2 : u ++ (pat.data ++ v) = ([] : List Char) := by simpa using huv
  exact (List.append_eq_nil.mp (List.append_eq_nil.mp h2).2).1

theorem fallbackPlan_contains (em d du b p : String) :
    containsText (fallbackPlan em d du b p) em
    ∧ containsText (fallbackPlan em d du b p) d
    ∧ containsText (fallbackPlan em d du b p) du
    ∧ containsText (fallbackPlan em d du b p) b
    ∧ containsText (fallbackPlan em d du b p) p
    ∧ containsText (fallbackPlan em d du b p) "1. 事前に主要な観光スポットを調査してください"
    ∧ containsText (fallbackPlan em d du b p) "2. 現地の天気に適した服装を準備してください"
    ∧ containsText (fallbackPlan em d du b p) "3. 現地の交通手段を確認してください"
    ∧ containsText (fallbackPlan em d du b p) "4. 旅行保険への加入を検討してください" := by
  refine ⟨?_, ?_, ?_, ?_, ?_, ?_, ?_, ?_, ?_⟩ <;>
    (unfold fallbackPlan;
     repeat first
       | exact ct_right _ (ct_self _)
       | apply ct_left)

theorem fallbackPlan_ne_empty (em d du b p : String) : fallbackPlan em d du b p ≠ "" :=
  str_ne_empty_of_contains _ _ (fallbackPlan_contains em d du b p).2.2.2.2.2.1
    (by decide)

theorem runFrom_step (env : Env) (fuel : Nat) (n m : Node) (s : TravelPlanningState)
    (h : routeAfter n (stepNode env n s).next_step = RouteResult.next m) :
    runFrom env (fuel + 1) n s = runFrom env fuel m (stepNode env n s) := by
  show (match routeAfter n (stepNode env n s).next_step with
        | RouteResult.halt => Except.ok (stepNode env n s)
        | RouteResult.next m2 => runFrom env fuel m2 (stepNode env n s)
        | RouteResult.invalid =>
            Except.error ("unknown next_step: " ++ (stepNode env n s).next_step))
      = runFrom env fuel m (stepNode env n s)
  rw [h]

theorem runFrom_halt (env : Env) (fuel : Nat) (n : Node) (s : TravelPlanningState)
    (h : routeAfter n (stepNode env n s).next_step = RouteResult.halt) :
    runFrom env (fuel + 1) n s = Except.ok (stepNode env n s) := by
  show (match routeAfter n (stepNode env n s).next_step with
        | RouteResult.halt => Except.ok (stepNode env n s)
        | RouteResult.next m2 => runFrom env fuel m2 (stepNode env n s)
        | RouteResult.invalid =>
            Except.error ("unknown next_step: " ++ (stepNode env n s).next_step))
      = Except.ok (stepNode env n s)
  rw [h]

/-- C4: the entry router (`_should_research` with the START conditional-edge
dictionary) sends the workflow to RESEARCH exactly when `research_done` is
false, and directly to PLAN_GENERATION exactly when it is true. -/
theorem entry_router_research_iff (s : TravelPlanningState) :
    (entryEdge (_should_research s) = RouteResult.next Node.research
       ↔ s.research_done = false)
    ∧ (entryEdge (_should_research s) = RouteResult.next Node.plan_generation
       ↔ s.research_done = true) := by
  cases h : s.research_done <;> simp only [_should_research, h] <;> decide

/-- C5: querying the knowledge base when the vector index is unset returns,
for every query text and every `top_k`, exactly the one sentinel hit whose
content says the knowledge base is uninitialized (the function is total, so
no fault is raised, and the result is never empty). -/
theorem query_uninitialized_sentinel (query : String) (top_k : Nat) :
    query_knowledge_base none query top_k =
      [{ content := "ナレッジベースが初期化されていません", source := ""
       , similarity_score := none }] := rfl

/-- C6 counterexample: with the vector index unset, the query at `top_k = 3`
does return at most 3 hits, but the returned sentinel hit carries no
`similarity_score` key — the claim "every returned hit carries its
similarity score" is false at this concrete input. -/
theorem query_hits_scored_counterexample :
    ¬ ((query_knowledge_base none "京都の旅行情報 観光 滞在期間:2泊3日" 3).length ≤ 3
       ∧ ∀ hit ∈ query_knowledge_base none "京都の旅行情報 観光 滞在期間:2泊3日" 3,
           hit.similarity_score.isSome = true) := by
  decide

/-- C6 amended: when the vector index is set (FAISS) and the underlying
scored similarity search succeeds returning at most `top_k` scored
documents, the query returns at most `top_k` hits and every returned hit
carries its similarity score; sentinel and error hits (unset index or a
raising search) are the only unscored ones. -/
theorem query_hits_scored_amended
    (search : String → Nat → Except String (List (RagDoc × Int)))
    (query : String) (top_k : Nat) (results : List (RagDoc × Int))
    (hok : search query top_k = Except.ok results) (hlen : results.length ≤ top_k) :
    (query_knowledge_base (some (VectorStore.faiss search)) query top_k).length ≤ top_k
    ∧ ∀ hit ∈ query_knowledge_base (some (VectorStore.faiss search)) query top_k,
        hit.similarity_score.isSome = true := by
  constructor
  · simpa [query_knowledge_base, hok] using hlen
  · intro hit hmem
    simp only [query_knowledge_base, hok, List.mem_map] at hmem
    obtain ⟨ds, _, rfl⟩ := hmem
    rfl

def searchC6 : String → Nat → Except String (List (RagDoc × Int)) :=
  fun _ _ => Except.ok [({ page_content := "京都の寺院情報", metadata_source := some "kyoto.md" }, 42)]

theorem query_hits_scored_amended_witness :
    (searchC6 "京都" 3
       = Except.ok [({ page_content := "京都の寺院情報", metadata_source := some "kyoto.md" }, 42)])
    ∧ ((query_knowledge_base (some (VectorStore.faiss searchC6)) "京都" 3).length ≤ 3
       ∧ ∀ hit ∈ query_knowledge_base (some (VectorStore.faiss searchC6)) "京都" 3,
           hit.similarity_score.isSome = true) :=
  ⟨rfl, query_hits_scored_amended searchC6 "京都" 3 _ rfl (by decide)⟩

def envC7 : Env :=
  { wikipedia_run := fun _ => Except.ok "京都の概要"
  , serpapi := none
  , kb_query := fun _ _ => Except.ok []
  , llm := fun _ _ => Except.ok "プラン本文" }

def stateC7 : TravelPlanningState := initialState "東京" "京都" "5万円~10万円" "2泊3日" "観光"

/-- C7 counterexample: on a successful research step the encyclopedic
(Wikipedia) result is stored under the key `"wikipedia"`, not under the key
`"encyclopedia"` the claim names — looking up `"encyclopedia"` in the
resulting mapping finds nothing. -/
theorem research_key_counterexample :
    (_research envC7 stateC7).next_step = "rag"
    ∧ (_research envC7 stateC7).research_results.lookup "wikipedia" = some "京都の概要"
    ∧ (_research envC7 stateC7).research_results.lookup "encyclopedia" = none := by
  decide

/-- C7 amended: on research success the encyclopedic lookup result is stored
under the key `"wikipedia"`; exactly when a web-search provider is configured
(and its call succeeds) the mapping additionally holds `"web_search"`; when
the provider is absent the step still succeeds (`next_step = "rag"`, error
untouched) with the encyclopedic key alone. -/
theorem research_results_keys_amended (env : Env) (s : TravelPlanningState) (w : String)
    (hwiki : env.wikipedia_run (wikiQuery s.destination) = Except.ok w) :
    (env.serpapi = none →
        (_research env s).research_results = [("wikipedia", w)]
        ∧ (_research env s).next_step = "rag"
        ∧ (_research env s).error = s.error)
    ∧ (∀ f web, env.serpapi = some f → f (webQuery s.destination) = Except.ok web →
        (_research env s).research_results = [("wikipedia", w), ("web_search", web)]
        ∧ (_research env s).next_step = "rag"
        ∧ (_research env s).error = s.error) := by
  constructor
  · intro hs
    simp [_research, hwiki, hs]
  · intro f web hs hw
    simp [_research, hwiki, hs, hw]

theorem research_results_keys_amended_witness :
    (envC7.wikipedia_run (wikiQuery stateC7.destination) = Except.ok "京都の概要")
    ∧ ((envC7.serpapi = none →
          (_research envC7 stateC7).research_results = [("wikipedia", "京都の概要")]
          ∧ (_research envC7 stateC7).next_step = "rag"
          ∧ (_research envC7 stateC7).error = stateC7.error)
       ∧ (∀ f web, envC7.serpapi = some f → f (webQuery stateC7.destination) = Except.ok web →
          (_research envC7 stateC7).research_results
              = [("wikipedia", "京都の概要"), ("web_search", web)]
          ∧ (_research envC7 stateC7).next_step = "rag"
          ∧ (_research envC7 stateC7).error = stateC7.error)) :=
  ⟨rfl, research_results_keys_amended envC7 stateC7 "京都の概要" rfl⟩

/-- C8: every node, on every input state and every branch (success or
failure), leaves the five trip-request fields of the state unchanged; the
embedding's nodes are pure functions, so the input state itself is never
mutated. -/
theorem nodes_preserve_trip_request (env : Env) (n : Node) (s : TravelPlanningState) :
    (stepNode env n s).current_location = s.current_location
    ∧ (stepNode env n s).destination = s.destination
    ∧ (stepNode env n s).budget = s.budget
    ∧ (stepNode env n s).duration = s.duration
    ∧ (stepNode env n s).purpose = s.purpose := by
  cases n <;>
    simp only [stepNode, _research, _rag, _plan_generation, _recommendation, _error_handler] <;>
    (repeat' split) <;> simp

/-- C3: when the plan-generation LLM call raises, the node records the error
and the router dispatches to the error handler; the error handler — pure
formatting, no `Env` access, total — produces exactly the fallback template
(so it is deterministic and always succeeds), whose text contains the literal
recorded error message, all four supplied trip fields, and the four generic
advice bullet points, and sets `next_step` to `"end"`. -/
theorem plan_failure_error_handler (env : Env) (s : TravelPlanningState) (e : String)
    (hllm : env.llm planSystemMessage (planUserMessage s) = Except.error e) :
    (_plan_generation env s).next_step = "error_handler"
    ∧ routeAfter Node.plan_generation (_plan_generation env s).next_step
        = RouteResult.next Node.error_handler
    ∧ (_error_handler (_plan_generation env s)).next_step = "end"
    ∧ (_error_handler (_plan_generation env s)).travel_plan
        = fallbackPlan ("旅行プラン生成中にエラーが発生しました: " ++ e)
            s.destination s.duration s.budget s.purpose
    ∧ containsText (_error_handler (_plan_generation env s)).travel_plan
        ("旅行プラン生成中にエラーが発生しました: " ++ e)
    ∧ containsText (_error_handler (_plan_generation env s)).travel_plan s.destination
    ∧ containsText (_error_handler (_plan_generation env s)).travel_plan s.duration
    ∧ containsText (_error_handler (_plan_generation env s)).travel_plan s.budget
    ∧ containsText (_error_handler (_plan_generation env s)).travel_plan s.purpose
    ∧ containsText (_error_handler (_plan_generation env s)).travel_plan
        "1. 事前に主要な観光スポットを調査してください"
    ∧ containsText (_error_handler (_plan_generation env s)).travel_plan
        "2. 現地の天気に適した服装を準備してください"
    ∧ containsText (_error_handler (_plan_generation env s)).travel_plan
        "3. 現地の交通手段を確認してください"
    ∧ containsText (_error_handler (_plan_generation env s)).travel_plan
        "4. 旅行保険への加入を検討してください" := by
  have h1 : _plan_generation env s
      = { s with error := "旅行プラン生成中にエラーが発生しました: " ++ e
               , next_step := "error_handler" } := by
    simp [_plan_generation, hllm]
  rw [h1]
  obtain ⟨c1, c2, c3, c4, c5, c6, c7, c8, c9⟩ :=
    fallbackPlan_contains ("旅行プラン生成中にエラーが発生しました: " ++ e)
      s.destination s.duration s.budget s.purpose
  exact ⟨rfl, rfl, rfl, rfl, c1, c2, c3, c4, c5, c6, c7, c8, c9⟩

/-- Invariant behind C1: a run that terminates normally from any node (with
the precondition that a run already sitting at RECOMMENDATION has a plan)
ends with a non-empty `travel_plan`, as long as successful LLM completions
are non-empty. -/
theorem run_travel_plan_ne (env : Env)
    (hllm : ∀ sys usr r, env.llm sys usr = Except.ok r → r ≠ "") :
    ∀ (fuel : Nat) (n : Node) (s fs : TravelPlanningState),
      (n = Node.recommendation → s.travel_plan ≠ "") →
      runFrom env fuel n s = Except.ok fs → fs.travel_plan ≠ "" := by
  intro fuel
  induction fuel with
  | zero => intro n s fs _ h; simp [runFrom] at h
  | succ fuel ih =>
    intro n s fs hpre hrun
    cases n with
    | research =>
      rcases hw : env.wikipedia_run (wikiQuery s.destination) with e | w
      · have hstep : stepNode env Node.research s
            = { s with error := "research中にエラーが発生しました: " ++ e
                     , next_step := "error_handler" } := by
          simp [stepNode, _research, hw]
        rw [runFrom_step env fuel Node.research Node.error_handler s (by rw [hstep]; rfl)] at hrun
        exact ih Node.error_handler _ fs (fun h => Node.noConfusion h) hrun
      · rcases hsp : env.serpapi with _ | f
        · have hstep : stepNode env Node.research s
              = { s with research_done := true
                       , research_results := [("wikipedia", w)]
                       , next_step := "rag" } := by
            simp [stepNode, _research, hw, hsp]
          rw [runFrom_step env fuel Node.research Node.rag s (by rw [hstep]; rfl)] at hrun
          exact ih Node.rag _ fs (fun h => Node.noConfusion h) hrun
        · rcases hf : f (webQuery s.destination) with e2 | w2
          · have hstep : stepNode env Node.research s
                = { s with error := "research中にエラーが発生しました: " ++ e2
                         , next_step := "error_handler" } := by
              simp [stepNode, _research, hw, hsp, hf]
            rw [runFrom_step env fuel Node.research Node.error_handler s (by rw [hstep]; rfl)] at hrun
            exact ih Node.error_handler _ fs (fun h => Node.noConfusion h) hrun
          · have hstep : stepNode env Node.research s
                = { s with research_done := true
                         , research_results := [("wikipedia", w), ("web_search", w2)]
                         , next_step := "rag" } := by
              simp [stepNode, _research, hw, hsp, hf]
            rw [runFrom_step env fuel Node.research Node.rag s (by rw [hstep]; rfl)] at hrun
            exact ih Node.rag _ fs (fun h => Node.noConfusion h) hrun
    | rag =>
      rcases hk : env.kb_query (ragQuery s.destination s.purpose s.duration) 3 with e | rs
      · have hstep : stepNode env Node.rag s
            = { s with error := "内部ナレッジベース検索中にエラーが発生しました: " ++ e
                     , rag_results := []
                     , next_step := "plan_generation" } := by
          simp [stepNode, _rag, hk]
        rw [runFrom_step env fuel Node.rag Node.plan_generation s (by rw [hstep]; rfl)] at hrun
        exact ih Node.plan_generation _ fs (fun h => Node.noConfusion h) hrun
      · have hstep : stepNode env Node.rag s
            = { s with rag_results := rs, next_step := "plan_generation" } := by
          simp [stepNode, _rag, hk]
        rw [runFrom_step env fuel Node.rag Node.plan_generation s (by rw [hstep]; rfl)] at hrun
        exact ih Node.plan_generation _ fs (fun h => Node.noConfusion h) hrun
    | plan_generation =>
      rcases hp : env.llm planSystemMessage (planUserMessage s) with e | c
      · have hstep : stepNode env Node.plan_generation s
            = { s with error := "旅行プラン生成中にエラーが発生しました: " ++ e
                     , next_step := "error_handler" } := by
          simp [stepNode, _plan_generation, hp]
        rw [runFrom_step env fuel Node.plan_generation Node.error_handler s (by rw [hstep]; rfl)] at hrun
        exact ih Node.error_handler _ fs (fun h => Node.noConfusion h) hrun
      · have hstep : stepNode env Node.plan_generation s
            = { s with travel_plan := c, next_step := "recommendation" } := by
          simp [stepNode, _plan_generation, hp]
        rw [runFrom_step env fuel Node.plan_generation Node.recommendation s (by rw [hstep]; rfl)] at hrun
        refine ih Node.recommendation _ fs ?_ hrun
        intro _
        rw [hstep]
        exact hllm _ _ _ hp
    | recommendation =>
      rcases hr : env.llm recommendationSystemMessage (recommendationUserMessage s) with e | r
      · have hstep : stepNode env Node.recommendation s
            = { s with error := "追加情報生成中にエラーが発生しました: " ++ e
                     , next_step := "error_handler" } := by
          simp [stepNode, _recommendation, hr]
        rw [runFrom_step env fuel Node.recommendation Node.error_handler s (by rw [hstep]; rfl)] at hrun
        exact ih Node.error_handler _ fs (fun h => Node.noConfusion h) hrun
      · have hstep : stepNode env Node.recommendation s
            = { s with additional_info := r, next_step := "end" } := by
          simp [stepNode, _recommendation, hr]
        rw [runFrom_halt env fuel Node.recommendation s (by rw [hstep]; rfl)] at hrun
        injection hrun with h2
        rw [← h2, hstep]
        exact hpre rfl
    | error_handler =>
      rw [runFrom_halt env fuel Node.error_handler s rfl] at hrun
      injection hrun with h2
      rw [← h2]
      exact fallbackPlan_ne_empty _ _ _ _ _

/-- C1: for every trip request (supposing successful LLM completions are
non-empty text), `generate_travel_plans` returns either a payload whose
`travel_plans` value is present and non-empty, or a payload with no
`travel_plans` key and a present, non-empty `error` — never a payload where
both are empty/absent. -/
theorem generate_plan_nonempty_or_error (env : Env)
    (hllm : ∀ sys usr r, env.llm sys usr = Except.ok r → r ≠ "")
    (current_location destination budget duration purpose : String) :
    (∃ t, (generate_travel_plans env current_location destination budget duration
             purpose).travel_plans = some t ∧ t ≠ "")
    ∨ ((generate_travel_plans env current_location destination budget duration
          purpose).travel_plans = none
       ∧ ∃ e2, (generate_travel_plans env current_location destination budget duration
                  purpose).error = some e2 ∧ e2 ≠ "") := by
  unfold generate_travel_plans
  cases hrun : invokeWorkflow env
      (initialState current_location destination budget duration purpose) with
  | error e =>
      right
      exact ⟨rfl, ⟨"旅行プランの生成中にエラーが発生しました: " ++ e, rfl,
        append_ne_empty_of_left _ _ (by decide)⟩⟩
  | ok fs =>
      left
      refine ⟨fs.travel_plan, rfl, ?_⟩
      exact run_travel_plan_ne env hllm 25 Node.research _ fs
        (fun h => Node.noConfusion h) hrun

def envC3 : Env :=
  { wikipedia_run := fun _ => Except.ok "京都の概要"
  , serpapi := none
  , kb_query := fun _ _ => Except.ok []
  , llm := fun _ _ => Except.error "APIエラー" }

def stateC3 : TravelPlanningState := initialState "東京" "京都" "5万円~10万円" "2泊3日" "観光"

theorem plan_failure_error_handler_witness :
    (envC3.llm planSystemMessage (planUserMessage stateC3) = Except.error "APIエラー")
    ∧ ((_plan_generation envC3 stateC3).next_step = "error_handler"
       ∧ routeAfter Node.plan_generation (_plan_generation envC3 stateC3).next_step
           = RouteResult.next Node.error_handler
       ∧ (_error_handler (_plan_generation envC3 stateC3)).next_step = "end"
       ∧ (_error_handler (_plan_generation envC3 stateC3)).travel_plan
           = fallbackPlan ("旅行プラン生成中にエラーが発生しました: " ++ "APIエラー")
               stateC3.destination stateC3.duration stateC3.budget stateC3.purpose
       ∧ containsText (_error_handler (_plan_generation envC3 stateC3)).travel_plan
           ("旅行プラン生成中にエラーが発生しました: " ++ "APIエラー")
       ∧ containsText (_error_handler (_plan_generation envC3 stateC3)).travel_plan
           stateC3.destination
       ∧ containsText (_error_handler (_plan_generation envC3 stateC3)).travel_plan
           stateC3.duration
       ∧ containsText (_error_handler (_plan_generation envC3 stateC3)).travel_plan
           stateC3.budget
       ∧ containsText (_error_handler (_plan_generation envC3 stateC3)).travel_plan
           stateC3.purpose
       ∧ containsText (_error_handler (_plan_generation envC3 stateC3)).travel_plan
           "1. 事前に主要な観光スポットを調査してください"
       ∧ containsText (_error_handler (_plan_generation envC3 stateC3)).travel_plan
           "2. 現地の天気に適した服装を準備してください"
       ∧ containsText (_error_handler (_plan_generation envC3 stateC3)).travel_plan
           "3. 現地の交通手段を確認してください"
       ∧ containsText (_error_handler (_plan_generation envC3 stateC3)).travel_plan
           "4. 旅行保険への加入を検討してください") :=
  ⟨rfl, plan_failure_error_handler envC3 stateC3 "APIエラー" rfl⟩

def envC1 : Env :=
  { wikipedia_run := fun _ => Except.ok "京都の概要"
  , serpapi := none
  , kb_query := fun _ _ => Except.ok []
  , llm := fun _ _ => Except.ok "生成された旅行プラン" }

theorem generate_plan_nonempty_or_error_witness :
    (∀ sys usr r, envC1.llm sys usr = Except.ok r → r ≠ "")
    ∧ ((∃ t, (generate_travel_plans envC1 "東京" "京都" "5万円~10万円" "2泊3日"
                "観光").travel_plans = some t ∧ t ≠ "")
       ∨ ((generate_travel_plans envC1 "東京" "京都" "5万円~10万円" "2泊3日"
             "観光").travel_plans = none
          ∧ ∃ e2, (generate_travel_plans envC1 "東京" "京都" "5万円~10万円" "2泊3日"
                     "観光").error = some e2 ∧ e2 ≠ "")) := by
  have h : ∀ sys usr r, envC1.llm sys usr = Except.ok r → r ≠ "" := by
    intro sys usr r hr
    injection hr with h2
    rw [← h2]
    decide
  exact ⟨h, generate_plan_nonempty_or_error envC1 h "東京" "京都" "5万円~10万円" "2泊3日" "観光"⟩

/-- Helper shared by C2 and C9: from PLAN_GENERATION, with both LLM calls
succeeding, the run performs generation then recommendation and halts with
the expected final state. -/
theorem runFrom_gen_rec_ok (env : Env) (fuel : Nat) (s1 : TravelPlanningState) (c r : String)
    (hplan : env.llm planSystemMessage (planUserMessage s1) = Except.ok c)
    (hrec : env.llm recommendationSystemMessage
        (recommendationUserMessage (_plan_generation env s1)) = Except.ok r) :
    runFrom env (fuel + 2) Node.plan_generation s1
      = Except.ok (_recommendation env (_plan_generation env s1))
    ∧ (_recommendation env (_plan_generation env s1)).travel_plan = c
    ∧ (_recommendation env (_plan_generation env s1)).additional_info = r
    ∧ (_recommendation env (_plan_generation env s1)).error = s1.error := by
  have hpg : _plan_generation env s1
      = { s1 with travel_plan := c, next_step := "recommendation" } := by
    simp [_plan_generation, hplan]
  have hrc : _recommendation env (_plan_generation env s1)
      = { _plan_generation env s1 with additional_info := r, next_step := "end" } := by
    simp [_recommendation, hrec]
  refine ⟨?_, ?_, ?_, ?_⟩
  · rw [show fuel + 2 = (fuel + 1) + 1 from rfl,
       runFrom_step env (fuel + 1) Node.plan_generation Node.recommendation s1
         (by rw [show stepNode env Node.plan_generation s1 = _plan_generation env s1 from rfl,
                 hpg]; rfl),
       show stepNode env Node.plan_generation s1 = _plan_generation env s1 from rfl,
       runFrom_halt env fuel Node.recommendation (_plan_generation env s1)
         (by rw [show stepNode env Node.recommendation (_plan_generation env s1)
                   = _recommendation env (_plan_generation env s1) from rfl, hrc]; rfl)]
    rfl
  · rw [hrc, hpg]
  · rw [hrc]
  · rw [hrc, hpg]

/-- C2: when the knowledge-base query inside the RAG node raises, the node
does not abort: it records the error message in `error`, sets `rag_results`
to the empty list and advances with `next_step = "plan_generation"`; the
continued run (with successful, non-empty generation) still halts normally
with a non-empty `travel_plan`. -/
theorem rag_failure_degrades (env : Env) (s : TravelPlanningState) (m c r : String) (fuel : Nat)
    (hkb : env.kb_query (ragQuery s.destination s.purpose s.duration) 3 = Except.error m)
    (hplan : env.llm planSystemMessage (planUserMessage (_rag env s)) = Except.ok c)
    (hc : c ≠ "")
    (hrec : env.llm recommendationSystemMessage
        (recommendationUserMessage (_plan_generation env (_rag env s))) = Except.ok r) :
    (_rag env s).error = "内部ナレッジベース検索中にエラーが発生しました: " ++ m
    ∧ (_rag env s).error ≠ ""
    ∧ (_rag env s).rag_results = []
    ∧ (_rag env s).next_step = "plan_generation"
    ∧ runFrom env (fuel + 2) Node.plan_generation (_rag env s)
        = Except.ok (_recommendation env (_plan_generation env (_rag env s)))
    ∧ (_recommendation env (_plan_generation env (_rag env s))).travel_plan = c
    ∧ (_recommendation env (_plan_generation env (_rag env s))).travel_plan ≠ "" := by
  have h0 : _rag env s
      = { s with error := "内部ナレッジベース検索中にエラーが発生しました: " ++ m
               , rag_results := []
               , next_step := "plan_generation" } := by
    simp [_rag, hkb]
  obtain ⟨hrun, htp, _, _⟩ := runFrom_gen_rec_ok env fuel (_rag env s) c r hplan hrec
  refine ⟨by rw [h0], by rw [h0]; exact append_ne_empty_of_left _ _ (by decide),
          by rw [h0], by rw [h0], hrun, htp, ?_⟩
  rw [htp]
  exact hc

def envC2 : Env :=
  { wikipedia_run := fun _ => Except.ok "京都の概要"
  , serpapi := none
  , kb_query := fun _ _ => Except.error "接続エラー"
  , llm := fun _ _ => Except.ok "生成プラン" }

def stateC2 : TravelPlanningState := initialState "東京" "京都" "5万円~10万円" "2泊3日" "観光"

theorem rag_failure_degrades_witness :
    (envC2.kb_query (ragQuery stateC2.destination stateC2.purpose stateC2.duration) 3
       = Except.error "接続エラー")
    ∧ (envC2.llm planSystemMessage (planUserMessage (_rag envC2 stateC2)) = Except.ok "生成プラン")
    ∧ ("生成プラン" : String) ≠ ""
    ∧ (envC2.llm recommendationSystemMessage
         (recommendationUserMessage (_plan_generation envC2 (_rag envC2 stateC2)))
       = Except.ok "生成プラン")
    ∧ ((_rag envC2 stateC2).error = "内部ナレッジベース検索中にエラーが発生しました: " ++ "接続エラー"
       ∧ (_rag envC2 stateC2).error ≠ ""
       ∧ (_rag envC2 stateC2).rag_results = []
       ∧ (_rag envC2 stateC2).next_step = "plan_generation"
       ∧ runFrom envC2 (23 + 2) Node.plan_generation (_rag envC2 stateC2)
           = Except.ok (_recommendation envC2 (_plan_generation envC2 (_rag envC2 stateC2)))
       ∧ (_recommendation envC2 (_plan_generation envC2 (_rag envC2 stateC2))).travel_plan
           = "生成プラン"
       ∧ (_recommendation envC2 (_plan_generation envC2 (_rag envC2 stateC2))).travel_plan ≠ "") :=
  ⟨rfl, rfl, by decide, rfl,
   rag_failure_degrades envC2 stateC2 "接続エラー" "生成プラン" "生成プラン" 23 rfl rfl (by decide) rfl⟩

/-- C9: (a) no node ever resets a non-empty `error` back to empty — every
node either preserves `error` or overwrites it with another non-empty
message; (b) consequently a run whose retrieval failed but whose generation
and recommendation succeeded ends with both a non-empty `travel_plan` and
the non-empty retrieval error, and `generate_travel_plans` attaches the
`"error"` key to the returned payload alongside the generated plan. -/
theorem error_monotone_and_surfaced (env : Env)
    (current_location destination budget duration purpose w m c r : String)
    (hwiki : env.wikipedia_run (wikiQuery destination) = Except.ok w)
    (hserp : env.serpapi = none)
    (hkb : env.kb_query (ragQuery destination purpose duration) 3 = Except.error m)
    (hplan : env.llm planSystemMessage (planUserMessage (_rag env (_research env
        (initialState current_location destination budget duration purpose)))) = Except.ok c)
    (hc : c ≠ "")
    (hrec : env.llm recommendationSystemMessage (recommendationUserMessage (_plan_generation env
        (_rag env (_research env
          (initialState current_location destination budget duration purpose))))) = Except.ok r) :
    (∀ (env2 : Env) (n : Node) (s : TravelPlanningState),
        s.error ≠ "" → (stepNode env2 n s).error ≠ "")
    ∧ generate_travel_plans env current_location destination budget duration purpose
        = { travel_plans := some c
          , additional_info := some r
          , error := some ("内部ナレッジベース検索中にエラーが発生しました: " ++ m) }
    ∧ c ≠ ""
    ∧ ("内部ナレッジベース検索中にエラーが発生しました: " ++ m) ≠ "" := by
  have herrne : ("内部ナレッジベース検索中にエラーが発生しました: " ++ m) ≠ "" :=
    append_ne_empty_of_left _ _ (by decide)
  have hmono : ∀ (env2 : Env) (n : Node) (s : TravelPlanningState),
      s.error ≠ "" → (stepNode env2 n s).error ≠ "" := by
    intro env2 n s hs
    cases n <;>
      simp only [stepNode, _research, _rag, _plan_generation, _recommendation, _error_handler] <;>
      (repeat' split) <;>
      first
        | exact hs
        | exact append_ne_empty_of_left _ _ (by decide)
  have hres : _research env (initialState current_location destination budget duration purpose)
      = { current_location := current_location, destination := destination, budget := budget
        , duration := duration, purpose := purpose, research_done := true
        , research_results := [("wikipedia", w)], rag_results := [], travel_plan := ""
        , additional_info := "", error := "", next_step := "rag" } := by
    simp [_research, initialState, hwiki, hserp]
  have hrg : _rag env (_research env
        (initialState current_location destination budget duration purpose))
      = { current_location := current_location, destination := destination, budget := budget
        , duration := duration, purpose := purpose, research_done := true
        , research_results := [("wikipedia", w)], rag_results := [], travel_plan := ""
        , additional_info := ""
        , error := "内部ナレッジベース検索中にエラーが発生しました: " ++ m
        , next_step := "plan_generation" } := by
    rw [hres]
    simp [_rag, hkb]
  obtain ⟨hrun23, htp, hai, herr0⟩ := runFrom_gen_rec_ok env 21
    (_rag env (_research env (initialState current_location destination budget duration purpose)))
    c r hplan hrec
  have hinv : invokeWorkflow env
        (initialState current_location destination budget duration purpose)
      = Except.ok (_recommendation env (_plan_generation env (_rag env (_research env
          (initialState current_location destination budget duration purpose))))) := by
    rw [show invokeWorkflow env
          (initialState current_location destination budget duration purpose)
        = runFrom env 25 Node.research
            (initialState current_location destination budget duration purpose) from rfl]
    rw [show (25 : Nat) = 24 + 1 from rfl,
        runFrom_step env 24 Node.research Node.rag
          (initialState current_location destination budget duration purpose)
          (by rw [show stepNode env Node.research
                    (initialState current_location destination budget duration purpose)
                  = _research env
                    (initialState current_location destination budget duration purpose) from rfl,
                  hres]; rfl),
        show stepNode env Node.research
            (initialState current_location destination budget duration purpose)
          = _research env (initialState current_location destination budget duration purpose)
          from rfl]
    rw [show (24 : Nat) = 23 + 1 from rfl,
        runFrom_step env 23 Node.rag Node.plan_generation
          (_research env (initialState current_location destination budget duration purpose))
          (by rw [show stepNode env Node.rag (_research env
                    (initialState current_location destination budget duration purpose))
                  = _rag env (_research env
                    (initialState current_location destination budget duration purpose)) from rfl,
                  hrg]; rfl),
        show stepNode env Node.rag (_research env
            (initialState current_location destination budget duration purpose))
          = _rag env (_research env
            (initialState current_location destination budget duration purpose)) from rfl]
    rw [show (23 : Nat) = 21 + 2 from rfl]
    exact hrun23
  refine ⟨hmono, ?_, hc, herrne⟩
  unfold generate_travel_plans
  rw [hinv]
  simp only [htp, hai, herr0]
  rw [hrg]
  simp [herrne]

def envC9 : Env :=
  { wikipedia_run := fun _ => Except.ok "京都の概要"
  , serpapi := none
  , kb_query := fun _ _ => Except.error "接続失敗"
  , llm := fun _ _ => Except.ok "生成プラン" }

theorem error_monotone_and_surfaced_witness :
    (envC9.wikipedia_run (wikiQuery "京都") = Except.ok "京都の概要")
    ∧ (envC9.serpapi = none)
    ∧ (envC9.kb_query (ragQuery "京都" "観光" "2泊3日") 3 = Except.error "接続失敗")
    ∧ (envC9.llm planSystemMessage (planUserMessage (_rag envC9 (_research envC9
         (initialState "東京" "京都" "5万円~10万円" "2泊3日" "観光")))) = Except.ok "生成プラン")
    ∧ ("生成プラン" : String) ≠ ""
    ∧ (envC9.llm recommendationSystemMessage (recommendationUserMessage (_plan_generation envC9
         (_rag envC9 (_research envC9 (initialState "東京" "京都" "5万円~10万円" "2泊3日" "観光")))))
       = Except.ok "生成プラン")
    ∧ ((∀ (env2 : Env) (n : Node) (s : TravelPlanningState),
          s.error ≠ "" → (stepNode env2 n s).error ≠ "")
       ∧ generate_travel_plans envC9 "東京" "京都" "5万円~10万円" "2泊3日" "観光"
           = { travel_plans := some "生成プラン"
             , additional_info := some "生成プラン"
             , error := some ("内部ナレッジベース検索中にエラーが発生しました: " ++ "接続失敗") }
       ∧ ("生成プラン" : String) ≠ ""
       ∧ ("内部ナレッジベース検索中にエラーが発生しました: " ++ "接続失敗") ≠ "") :=
  ⟨rfl, rfl, rfl, rfl, by decide, rfl,
   error_monotone_and_surfaced envC9 "東京" "京都" "5万円~10万円" "2泊3日" "観光"
     "京都の概要" "接続失敗" "生成プラン" "生成プラン" rfl rfl rfl rfl (by decide) rfl⟩

theorem isPrefixOf_append_drop :
    ∀ (a b : List Char), a.isPrefixOf b = true → a ++ b.drop a.length = b := by
  intro a
  induction a with
  | nil => simp
  | cons x xs ih =>
    intro b hb
    cases b with
    | nil => simp [List.isPrefixOf] at hb
    | cons y ys =>
      simp only [List.isPrefixOf, Bool.and_eq_true, beq_iff_eq] at hb
      obtain ⟨h1, h2⟩ := hb
      subst h1
      simp [ih ys h2]

theorem findSplit_eq (sep : List Char) :
    ∀ (text pre post : List Char), findSplit sep text = some (pre, post) →
      text = pre ++ sep ++ post := by
  intro text
  induction text with
  | nil => intro pre post h; simp [findSplit] at h
  | cons c rest ih =>
    intro pre post h
    rw [findSplit] at h
    by_cases hp : sep.isPrefixOf (c :: rest)
    · rw [if_pos hp] at h
      injection h with h2
      injection h2 with h3 h4
      subst h3
      subst h4
      have hpre := isPrefixOf_append_drop sep (c :: rest) hp
      simpa using hpre.symm
    · rw [if_neg hp] at h
      rcases hfs : findSplit sep rest with _ | ⟨pre2, post2⟩
      · rw [hfs] at h
        simp at h
      · rw [hfs] at h
        injection h with h2
        injection h2 with h3 h4
        subst h3
        subst h4
        have := ih pre2 post2 hfs
        simp [this]

theorem findSplit_post_lt (sep : List Char) (hsep : sep ≠ [])
    (text pre post : List Char) (h : findSplit sep text = some (pre, post)) :
    post.length < text.length := by
  have he := findSplit_eq sep text pre post h
  rw [he]
  have hs : 0 < sep.length := List.length_pos.mpr hsep
  simp [List.length_append]
  omega

theorem splitOnKeepGo_flatten (sep : List Char) :
    ∀ (fuel : Nat) (text : List Char), (splitOnKeepGo sep fuel text).flatten = text := by
  intro fuel
  induction fuel with
  | zero => intro text; by_cases h : text = [] <;> simp [splitOnKeepGo, h]
  | succ fuel ih =>
    intro text
    rcases hfs : findSplit sep text with _ | ⟨pre, post⟩
    · simp only [splitOnKeepGo, hfs]
      by_cases h : text = [] <;> simp [h]
    · have he := findSplit_eq sep text pre post hfs
      simp [splitOnKeepGo, hfs, ih post]
      simp [he]

theorem splitOnKeepGo_ne (sep : List Char) (hsep : sep ≠ []) :
    ∀ (fuel : Nat) (text : List Char), ∀ p ∈ splitOnKeepGo sep fuel text, p ≠ [] := by
  intro fuel
  induction fuel with
  | zero =>
    intro text p hp
    by_cases h : text = [] <;> simp [splitOnKeepGo, h] at hp
    subst hp
    exact h
  | succ fuel ih =>
    intro text p hp
    rcases hfs : findSplit sep text with _ | ⟨pre, post⟩
    · simp only [splitOnKeepGo, hfs] at hp
      by_cases h : text = [] <;> simp [h] at hp
      subst hp
      exact h
    · simp [splitOnKeepGo, hfs] at hp
      rcases hp with hp | hp
      · subst hp
        intro hc
        exact hsep (List.append_eq_nil.mp hc).2
      · exact ih post p hp

theorem toBlocksGo_flatten (target : Nat) :
    ∀ (fuel : Nat) (text : List Char), (toBlocksGo target fuel text).flatten = text := by
  intro fuel
  induction fuel with
  | zero => intro text; cases text <;> simp [toBlocksGo]
  | succ fuel ih =>
    intro text
    cases text with
    | nil => simp [toBlocksGo]
    | cons c rest => simp [toBlocksGo, ih]

theorem toBlocksGo_le (target : Nat) (ht : 0 < target) :
    ∀ (fuel : Nat) (text : List Char), text.length ≤ fuel →
      ∀ b ∈ toBlocksGo target fuel text, b.length ≤ target := by
  intro fuel
  induction fuel with
  | zero =>
    intro text hlen b hb
    cases text with
    | nil => simp [toBlocksGo] at hb
    | cons c rest => simp at hlen
  | succ fuel ih =>
    intro text hlen b hb
    cases text with
    | nil => simp [toBlocksGo] at hb
    | cons c rest =>
      simp [toBlocksGo] at hb
      rcases hb with hb | hb
      · subst hb
        simp [List.length_take]
        omega
      · refine ih (rest.drop (target - 1)) ?_ b hb
        simp at hlen
        simp [List.length_drop]
        omega

theorem toBlocksGo_ne (target : Nat) :
    ∀ (fuel : Nat) (text : List Char), ∀ b ∈ toBlocksGo target fuel text, b ≠ [] := by
  intro fuel
  induction fuel with
  | zero =>
    intro text b hb
    cases text with
    | nil => simp [toBlocksGo] at hb
    | cons c rest => simp [toBlocksGo] at hb; subst hb; simp
  | succ fuel ih =>
    intro text b hb
    cases text with
    | nil => simp [toBlocksGo] at hb
    | cons c rest =>
      simp [toBlocksGo] at hb
      rcases hb with hb | hb
      · subst hb; simp
      · exact ih _ b hb

theorem flatten_map_flatten (l : List (List Char)) (f : List Char → List (List Char))
    (h : ∀ p ∈ l, (f p).flatten = p) : ((l.map f).flatten).flatten = l.flatten := by
  induction l with
  | nil => simp
  | cons p ps ih =>
    simp only [List.map_cons, List.flatten_cons, List.flatten_append]
    rw [h p (by simp), ih (fun q hq => h q (by simp [hq]))]

theorem splitPieces_flatten :
    ∀ (seps : List (List Char)) (target : Nat) (text : List Char),
      (splitPieces seps target text).flatten = text := by
  intro seps
  induction seps with
  | nil =>
    intro target text
    simp [splitPieces, toBlocks, toBlocksGo_flatten]
  | cons sep rest ih =>
    intro target text
    have hside : ∀ p ∈ splitOnKeep sep text,
        ((if p.length ≤ target then [p] else splitPieces rest target p)).flatten = p := by
      intro p hp
      by_cases h : p.length ≤ target <;> simp [h, ih]
    rw [splitPieces,
        flatten_map_flatten (splitOnKeep sep text)
          (fun p => if p.length ≤ target then [p] else splitPieces rest target p) hside]
    exact splitOnKeepGo_flatten sep text.length text

theorem splitPieces_le :
    ∀ (seps : List (List Char)) (target : Nat), 0 < target →
      ∀ (text q : List Char), q ∈ splitPieces seps target text → q.length ≤ target := by
  intro seps
  induction seps with
  | nil =>
    intro target ht text q hq
    exact toBlocksGo_le target ht text.length text (le_refl _) q hq
  | cons sep rest ih =>
    intro target ht text q hq
    rw [splitPieces, List.mem_flatten] at hq
    obtain ⟨m, hm, hqm⟩ := hq
    rw [List.mem_map] at hm
    obtain ⟨p, hp, rfl⟩ := hm
    by_cases h : p.length ≤ target
    · rw [if_pos h] at hqm
      simp at hqm
      subst hqm
      exact h
    · rw [if_neg h] at hqm
      exact ih target ht p q hqm

theorem splitPieces_ne :
    ∀ (seps : List (List Char)), (∀ sp ∈ seps, sp ≠ []) →
      ∀ (target : Nat) (text q : List Char), q ∈ splitPieces seps target text → q ≠ [] := by
  intro seps
  induction seps with
  | nil =>
    intro _ target text q hq
    exact toBlocksGo_ne target text.length text q hq
  | cons sep rest ih =>
    intro hseps target text q hq
    rw [splitPieces, List.mem_flatten] at hq
    obtain ⟨m, hm, hqm⟩ := hq
    rw [List.mem_map] at hm
    obtain ⟨p, hp, rfl⟩ := hm
    by_cases h : p.length ≤ target
    · rw [if_pos h] at hqm
      simp at hqm
      subst hqm
      exact splitOnKeepGo_ne sep (hseps sep (by simp)) text.length text q hp
    · rw [if_neg h] at hqm
      exact ih (fun sp hsp => hseps sp (by simp [hsp])) target p q hqm

theorem splitPieces_infix (seps : List (List Char)) (target : Nat) (text q : List Char)
    (hq : q ∈ splitPieces seps target text) : q <:+: text := by
  have h := splitPieces_flatten seps target text
  rw [← h]
  exact List.infix_of_mem_flatten hq

theorem splitPieces_heading (sep : List Char) (rest : List (List Char)) (target : Nat)
    (text : List Char) : ∀ q ∈ splitPieces (sep :: rest) target text,
      ∃ p ∈ splitOnKeep sep text, q <:+: p := by
  intro q hq
  rw [splitPieces, List.mem_flatten] at hq
  obtain ⟨m, hm, hqm⟩ := hq
  rw [List.mem_map] at hm
  obtain ⟨p, hp, rfl⟩ := hm
  by_cases h : p.length ≤ target
  · rw [if_pos h] at hqm
    simp at hqm
    subst hqm
    exact ⟨q, hp, List.infix_refl q⟩
  · rw [if_neg h] at hqm
    exact ⟨p, hp, splitPieces_infix rest target p q hqm⟩

theorem take_start (a b : List Char) (n : Nat) (h : a.length = n) : (a ++ b).take n = a := by
  rw [← h]
  exact List.take_left a b

theorem drop_start (a b : List Char) (n : Nat) (h : a.length = n) : (a ++ b).drop n = b := by
  rw [← h]
  exact List.drop_left a b

theorem twf_spec (limit : Nat) :
    ∀ (ps : List (List Char)) (acc : List Char),
      ∃ ext, (takeWhileFit limit acc ps).1 = acc ++ ext
        ∧ ext ++ ((takeWhileFit limit acc ps).2).flatten = ps.flatten := by
  intro ps
  induction ps with
  | nil => intro acc; exact ⟨[], by simp [takeWhileFit], by simp [takeWhileFit]⟩
  | cons p ps ih =>
    intro acc
    by_cases h : acc.length + p.length ≤ limit
    · obtain ⟨ext, h1, h2⟩ := ih (acc ++ p)
      refine ⟨p ++ ext, ?_, ?_⟩
      · simp only [takeWhileFit, if_pos h]
        rw [h1, List.append_assoc]
      · simp only [takeWhileFit, if_pos h, List.flatten_cons]
        rw [List.append_assoc, h2]
    · refine ⟨[], ?_, ?_⟩ <;> simp [takeWhileFit, h]

theorem twf_le (limit : Nat) :
    ∀ (ps : List (List Char)) (acc : List Char), acc.length ≤ limit →
      ((takeWhileFit limit acc ps).1).length ≤ limit := by
  intro ps
  induction ps with
  | nil => intro acc hacc; simpa [takeWhileFit] using hacc
  | cons p ps ih =>
    intro acc hacc
    by_cases h : acc.length + p.length ≤ limit
    · simp only [takeWhileFit, if_pos h]
      exact ih (acc ++ p) (by simp; omega)
    · simpa [takeWhileFit, h] using hacc

theorem twf_rest_big (limit : Nat) :
    ∀ (ps : List (List Char)) (acc q : List Char) (qs : List (List Char)),
      (takeWhileFit limit acc ps).2 = q :: qs →
      limit < ((takeWhileFit limit acc ps).1).length + q.length := by
  intro ps
  induction ps with
  | nil => intro acc q qs h; simp [takeWhileFit] at h
  | cons p ps ih =>
    intro acc q qs h
    by_cases hfit : acc.length + p.length ≤ limit
    · simp only [takeWhileFit, if_pos hfit] at h ⊢
      exact ih (acc ++ p) q qs h
    · simp only [takeWhileFit, if_neg hfit] at h ⊢
      injection h with h1 h2
      subst h1
      omega

theorem twf_rest_len (limit : Nat) :
    ∀ (ps : List (List Char)) (acc : List Char),
      ((takeWhileFit limit acc ps).2).length ≤ ps.length := by
  intro ps
  induction ps with
  | nil => intro acc; simp [takeWhileFit]
  | cons p ps ih =>
    intro acc
    by_cases h : acc.length + p.length ≤ limit
    · simp only [takeWhileFit, if_pos h]
      exact le_trans (ih (acc ++ p)) (by simp)
    · simp [takeWhileFit, h]

theorem twf_rest_mem (limit : Nat) :
    ∀ (ps : List (List Char)) (acc q : List Char),
      q ∈ (takeWhileFit limit acc ps).2 → q ∈ ps := by
  intro ps
  induction ps with
  | nil => intro acc q hq; simp [takeWhileFit] at hq
  | cons p ps ih =>
    intro acc q hq
    by_cases h : acc.length + p.length ≤ limit
    · simp only [takeWhileFit, if_pos h] at hq
      exact List.mem_cons_of_mem p (ih (acc ++ p) q hq)
    · simpa [takeWhileFit, h] using hq

theorem mergeGo_size (limit ov : Nat) :
    ∀ (fuel : Nat) (ps : List (List Char)) (prev : List Char),
      (∀ p ∈ ps, p.length + ov ≤ limit) →
      ∀ c ∈ mergeChunksGo limit ov fuel ps prev, c.length ≤ limit := by
  intro fuel
  induction fuel with
  | zero => intro ps prev _ c hc; cases ps <;> simp [mergeChunksGo] at hc
  | succ fuel ih =>
    intro ps prev hb c hc
    cases ps with
    | nil => simp [mergeChunksGo] at hc
    | cons p ps =>
      simp only [mergeChunksGo] at hc
      have hstart : (prev.drop (prev.length - ov)).length ≤ ov := by
        simp [List.length_drop]
        omega
      rcases List.mem_cons.mp hc with hc | hc
      · subst hc
        apply twf_le
        have := hb p (by simp)
        simp [List.length_append]
        omega
      · refine ih _ _ ?_ c hc
        intro q hq
        exact hb q (List.mem_cons_of_mem p (twf_rest_mem limit ps _ q hq))

theorem mergeGo_chain (limit ov : Nat) :
    ∀ (fuel : Nat) (ps : List (List Char)) (prev : List Char),
      ps.length ≤ fuel →
      (∀ p ∈ ps, p.length + ov ≤ limit) →
      (ps ≠ [] → ov ≤ prev.length) →
      List.Chain' (fun a b => ov ≤ a.length ∧ b.take ov = a.drop (a.length - ov))
        (prev :: mergeChunksGo limit ov fuel ps prev) := by
  intro fuel
  induction fuel with
  | zero =>
    intro ps prev hlen _ _
    cases ps with
    | nil => simp [mergeChunksGo]
    | cons p ps => simp at hlen
  | succ fuel ih =>
    intro ps prev hlen hb hprev
    cases ps with
    | nil => simp [mergeChunksGo]
    | cons p ps =>
      have hstartlen : (prev.drop (prev.length - ov)).length = ov := by
        have := hprev (by simp)
        simp [List.length_drop]
        omega
      obtain ⟨ext, hext1, _⟩ := twf_spec limit ps (prev.drop (prev.length - ov) ++ p)
      simp only [mergeChunksGo]
      rw [List.chain'_cons]
      constructor
      · refine ⟨hprev (by simp), ?_⟩
        rw [hext1, List.append_assoc]
        exact take_start _ _ _ hstartlen
      · apply ih
        · exact le_trans (twf_rest_len limit ps _) (by simpa using hlen)
        · intro q hq
          exact hb q (List.mem_cons_of_mem p (twf_rest_mem limit ps _ q hq))
        · intro hne
          rcases hrest : (takeWhileFit limit (prev.drop (prev.length - ov) ++ p) ps).2
            with _ | ⟨q, qs⟩
          · exact absurd hrest hne
          · have hbig := twf_rest_big limit ps _ q qs hrest
            have hq := hb q (List.mem_cons_of_mem p
              (twf_rest_mem limit ps _ q (by rw [hrest]; simp)))
            omega

theorem mergeGo_cov (limit ov : Nat) :
    ∀ (fuel : Nat) (ps : List (List Char)) (prev : List Char),
      ps.length ≤ fuel →
      (∀ p ∈ ps, p.length + ov ≤ limit) →
      (ps ≠ [] → ov ≤ prev.length) →
      ((mergeChunksGo limit ov fuel ps prev).map (fun c => c.drop ov)).flatten = ps.flatten := by
  intro fuel
  induction fuel with
  | zero =>
    intro ps prev hlen _ _
    cases ps with
    | nil => simp [mergeChunksGo]
    | cons p ps => simp at hlen
  | succ fuel ih =>
    intro ps prev hlen hb hprev
    cases ps with
    | nil => simp [mergeChunksGo]
    | cons p ps =>
      have hstartlen : (prev.drop (prev.length - ov)).length = ov := by
        have := hprev (by simp)
        simp [List.length_drop]
        omega
      obtain ⟨ext, hext1, hext2⟩ := twf_spec limit ps (prev.drop (prev.length - ov) ++ p)
      simp only [mergeChunksGo, List.map_cons, List.flatten_cons]
      rw [ih _ _ (le_trans (twf_rest_len limit ps _) (by simpa using hlen))
            (fun q hq => hb q (List.mem_cons_of_mem p (twf_rest_mem limit ps _ q hq)))
            ?_]
      · rw [hext1, List.append_assoc, drop_start _ _ _ hstartlen, ← hext2]
        simp [List.append_assoc]
      · intro hne
        rcases hrest : (takeWhileFit limit (prev.drop (prev.length - ov) ++ p) ps).2
          with _ | ⟨q, qs⟩
        · exact absurd hrest hne
        · have hbig := twf_rest_big limit ps _ q qs hrest
          have hq := hb q (List.mem_cons_of_mem p
            (twf_rest_mem limit ps _ q (by rw [hrest]; simp)))
          omega

theorem mergeChunks_size (limit ov : Nat) (pieces : List (List Char))
    (hb : ∀ p ∈ pieces, p.length + ov ≤ limit) :
    ∀ c ∈ mergeChunks limit ov pieces, c.length ≤ limit := by
  cases pieces with
  | nil => simp [mergeChunks]
  | cons p ps =>
    intro c hc
    simp only [mergeChunks] at hc
    rcases List.mem_cons.mp hc with hc | hc
    · subst hc
      apply twf_le
      have := hb p (by simp)
      omega
    · refine mergeGo_size limit ov ps.length _ _ ?_ c hc
      intro q hq
      exact hb q (List.mem_cons_of_mem p (twf_rest_mem limit ps p q hq))

theorem mergeChunks_chain (limit ov : Nat) (pieces : List (List Char))
    (hb : ∀ p ∈ pieces, p.length + ov ≤ limit) :
    List.Chain' (fun a b => ov ≤ a.length ∧ b.take ov = a.drop (a.length - ov))
      (mergeChunks limit ov pieces) := by
  cases pieces with
  | nil => simp [mergeChunks]
  | cons p ps =>
    simp only [mergeChunks]
    apply mergeGo_chain
    · exact twf_rest_len limit ps p
    · intro q hq
      exact hb q (List.mem_cons_of_mem p (twf_rest_mem limit ps p q hq))
    · intro hne
      rcases hrest : (takeWhileFit limit p ps).2 with _ | ⟨q, qs⟩
      · exact absurd hrest hne
      · have hbig := twf_rest_big limit ps p q qs hrest
        have hq := hb q (List.mem_cons_of_mem p
          (twf_rest_mem limit ps p q (by rw [hrest]; simp)))
        omega

theorem mergeChunks_cov (limit ov : Nat) (pieces : List (List Char))
    (hb : ∀ p ∈ pieces, p.length + ov ≤ limit) :
    (mergeChunks limit ov pieces).headI
      ++ (((mergeChunks limit ov pieces).tail).map (fun c => c.drop ov)).flatten
      = pieces.flatten := by
  cases pieces with
  | nil => rfl
  | cons p ps =>
    obtain ⟨ext, hext1, hext2⟩ := twf_spec limit ps p
    simp only [mergeChunks, List.headI, List.tail_cons]
    rw [mergeGo_cov limit ov ps.length _ _ (twf_rest_len limit ps p)
          (fun q hq => hb q (List.mem_cons_of_mem p (twf_rest_mem limit ps p q hq)))
          ?_]
    · rw [hext1, List.append_assoc, hext2, List.flatten_cons]
    · intro hne
      rcases hrest : (takeWhileFit limit p ps).2 with _ | ⟨q, qs⟩
      · exact absurd hrest hne
      · have hbig := twf_rest_big limit ps p q qs hrest
        have hq := hb q (List.mem_cons_of_mem p
          (twf_rest_mem limit ps p q (by rw [hrest]; simp)))
        omega

/-- C10: chunking with the configured `chunk_size = 500`, `chunk_overlap = 50`
and separator priority list: every chunk has length at most 500; every pair
of adjacent chunks shares the final 50 characters of the former as the first
50 characters of the latter (so at least 50 units of trailing/leading
overlap); concatenating the first chunk with the overlap-stripped remainder
reconstructs the whole document (no gaps); and splitting prefers the
highest-priority heading separator first — every produced piece lies inside
a single heading-delimited segment of the document. -/
theorem chunking_spec (doc : List Char) :
    (∀ c ∈ splitDocument doc, c.length ≤ 500)
    ∧ List.Chain' (fun a b => 50 ≤ a.length ∧ b.take 50 = a.drop (a.length - 50))
        (splitDocument doc)
    ∧ (splitDocument doc).headI
        ++ (((splitDocument doc).tail).map (fun c => c.drop 50)).flatten = doc
    ∧ (∀ q ∈ splitPieces ragSeparators 450 doc,
         ∃ p ∈ splitOnKeep ("\n## ").data doc, q <:+: p) := by
  have hb : ∀ p ∈ splitPieces ragSeparators 450 doc, p.length + 50 ≤ 500 := by
    intro p hp
    have := splitPieces_le ragSeparators 450 (by norm_num) doc p hp
    omega
  refine ⟨mergeChunks_size 500 50 _ hb, mergeChunks_chain 500 50 _ hb, ?_, ?_⟩
  · have h1 := mergeChunks_cov 500 50 (splitPieces ragSeparators 450 doc) hb
    rw [splitPieces_flatten] at h1
    exact h1
  · intro q hq
    exact splitPieces_heading ("\n## ").data _ 450 doc q hq

def docC10 : List Char :=
  ("## 京都\n清水寺は京都の東山にある有名な寺院です。八坂神社や祇園も観光の中心地です。\n## 奈良\n東大寺の大仏は奈良の象徴です。").data

theorem chunking_spec_witness :
    (∀ c ∈ splitDocument docC10, c.length ≤ 500)
    ∧ List.Chain' (fun a b => 50 ≤ a.length ∧ b.take 50 = a.drop (a.length - 50))
        (splitDocument docC10)
    ∧ (splitDocument docC10).headI
        ++ (((splitDocument docC10).tail).map (fun c => c.drop 50)).flatten = docC10
    ∧ (∀ q ∈ splitPieces ragSeparators 450 docC10,
         ∃ p ∈ splitOnKeep ("\n## ").data docC10, q <:+: p) :=
  chunking_spec docC10
